import Mathlib

/-!
Verification development for the Bob (responder) side of the BCH ⇄ XMR atomic
swap and its Electrum multiplexer, shallowly embedded from
`src/protocol/src/bob.rs` and `src/protocol/src/blockchain/mod.rs`.

Opaque cryptographic material (keys, proofs, signatures, hashes, scripts,
addresses) is represented by `Nat` / `List Nat`; the external cryptographic
collaborators (cross-curve proof verifier, adaptor-signature module, contract
script module, hashing, txid) are fields of a `Crypto` structure over which all
results quantify, matching the spec's treatment of them as out-of-scope
collaborators specified only at their boundary.

The pure transition function may panic in Rust (unchecked indexing
`transaction.input[0]`); the embedding returns `Option`, with `none` marking a
Rust panic (unrecoverable abort), so that claims about "never aborts" can be
settled.
-/

namespace BchXmrSwap

/-- Raw byte strings (scripts, hashes, serialized data). -/
abbrev Bytes := List Nat

/-- Opaque Monero (ed25519) scalar, e.g. a private view/spend key. -/
abbrev Scalar := Nat

/-- Opaque Monero (ed25519) public key point. -/
abbrev MoneroPub := Nat

/-- Opaque secp256k1 public key (BCH side). -/
abbrev PubKeyBch := Nat

/-- Opaque secp256k1 private key (BCH side, `ves`). -/
abbrev PrivKeyBch := Nat

/-- Opaque cross-curve discrete-log-equality proof. -/
abbrev CrossProof := Nat

/-- Opaque `ecdsa_fun::adaptor::EncryptedSignature`. -/
abbrev EncSig := Nat

/-- Opaque `ecdsa_fun` plain signature in compact scalar form. -/
abbrev CompactSig := Nat

/-- Opaque `bitcoincash::secp256k1::ecdsa::Signature`. -/
abbrev EcdsaSig := Nat

/-- Opaque `ecdsa_fun::Signature`. -/
abbrev AdaptorSig := Nat

/-- Opaque rendered address (cash address string / Monero address). -/
abbrev Address := Nat

/-- Opaque network selector (`bitcoincash::Network` / `monero::Network`). -/
abbrev Network := Nat

/-- `monero::ViewPair`: private view scalar plus public spend key. -/
structure ViewPair where
  view : Scalar
  spend : MoneroPub
deriving DecidableEq, Repr

/-- `monero::KeyPair`: private view and spend scalars. -/
structure KeyPair where
  view : Scalar
  spend : Scalar
deriving DecidableEq, Repr

/-- One contract of the pair (SwapLock or Refund); `timelock` is the script
timelock used as the spending input's sequence number, `tag` is the opaque
identity of the compiled script. -/
structure Contract where
  timelock : Nat
  tag : Nat
deriving DecidableEq, Repr

/-- `ContractPair`: the SwapLock and Refund contracts plus the mining fee. -/
structure ContractPair where
  swaplock : Contract
  refund : Contract
  mining_fee : Nat
deriving DecidableEq, Repr

/-- `KeyPublic`: a party's public key material together with the cross-curve
proof (verified once, at first contact). -/
structure KeyPublic where
  proof : CrossProof
  spend_bch : PubKeyBch
  monero_spend : MoneroPub
  monero_view : Scalar
  ves : PubKeyBch
deriving DecidableEq, Repr

/-- `KeyPublicWithoutProof`: the same key material with the proof dropped. -/
structure KeyPublicWithoutProof where
  spend_bch : PubKeyBch
  monero_spend : MoneroPub
  monero_view : Scalar
  ves : PubKeyBch
deriving DecidableEq, Repr

/-- `From<KeyPrivate> for KeyPublicWithoutProof`-style projection
(`keys.into()` in the `Msg0` arm). -/
def KeyPublic.toWithoutProof (k : KeyPublic) : KeyPublicWithoutProof :=
  { spend_bch := k.spend_bch
    monero_spend := k.monero_spend
    monero_view := k.monero_view
    ves := k.ves }

/-- Bob's private key material (`swap.keys`). -/
structure KeyPrivate where
  monero_spend : Scalar
  monero_view : Scalar
  ves : PrivKeyBch
deriving DecidableEq, Repr

/-- The immutable per-trade `Swap` record. -/
structure Swap where
  keys : KeyPrivate
  bch_recv : Bytes
  bch_amount : Nat
  xmr_amount : Nat
  timelock1 : Nat
  timelock2 : Nat
  bch_network : Network
  xmr_network : Network
deriving DecidableEq, Repr

/-- `bitcoincash::OutPoint`. -/
structure OutPoint where
  txid : Nat
  vout : Nat
deriving DecidableEq, Repr

/-- `bitcoincash::TxIn` (the fields the program sets or reads). -/
structure TxIn where
  sequence : Nat
  previous_output : OutPoint
  script_sig : Bytes
deriving DecidableEq, Repr

/-- `bitcoincash::TxOut` (the fields the program sets or reads). -/
structure TxOut where
  value : Nat
  script_pubkey : Bytes
deriving DecidableEq, Repr

/-- `bitcoincash::Transaction` (the fields the program sets or reads). -/
structure Transaction where
  version : Nat
  lock_time : Nat
  input : List TxIn
  output : List TxOut
deriving DecidableEq, Repr

/-- One parsed BCH script instruction (`blockdata::script::Instruction`). -/
inductive Instruction where
  | pushBytes (b : Bytes)
  | op (n : Nat)
deriving DecidableEq, Repr

/-- Result of `ContractPair::analyze_tx`: which contract the transaction
funds. -/
inductive TransactionType where
  | toSwapLock
  | toRefund
deriving DecidableEq, Repr

/-- The external cryptographic collaborators (spec §6), passed as an oracle:
cross-curve proof verifier, contract-script module, Monero/secp arithmetic,
hashing, the adaptor-signature module, script parsing and txid. The state
machine only consumes them; all theorems quantify over this structure. -/
structure Crypto where
  proofVerify : CrossProof → PubKeyBch → MoneroPub → Bool
  contractCreate : Nat → Bytes → PubKeyBch → Bytes → PubKeyBch → Nat → Nat →
    Network → Nat → Option ContractPair
  scalarAdd : Scalar → Scalar → Scalar
  pointAdd : MoneroPub → MoneroPub → MoneroPub
  fromPrivate : Scalar → MoneroPub
  vesPublic : PrivKeyBch → PubKeyBch
  sha256 : Bytes → Bytes
  addressFromViewpair : Network → ViewPair → Address
  cashAddress : Contract → Address
  lockingScript : Contract → Bytes
  unlockingScript : Contract → Bytes → Bytes
  analyzeTx : ContractPair → Transaction → Option (OutPoint × TransactionType)
  adaptorDecrypt : Scalar → EncSig → CompactSig
  adaptorVerify : PubKeyBch → Bytes → CompactSig → Bool
  sigFromCompact : CompactSig → Option EcdsaSig
  encryptedSign : PrivKeyBch → PubKeyBch → Bytes → EncSig
  instructions : Bytes → List (Except Unit Instruction)
  sigFromDer : Bytes → Option EcdsaSig
  serializeCompact : EcdsaSig → Bytes
  adaptorSigFromBytes : Bytes → Option AdaptorSig
  recoverDecryptionKey : PubKeyBch → AdaptorSig → EncSig → Scalar
  serializeDer : EcdsaSig → Bytes
  txid : Transaction → Nat

/-- `Value0` (payload of `WithAliceKey` / `ContractMatch`). -/
structure Value0 where
  alice_keys : KeyPublicWithoutProof
  alice_bch_recv : Bytes
  contract_pair : ContractPair
  shared_keypair : ViewPair
  xmr_restore_height : Nat
deriving DecidableEq, Repr

/-- `Value1` (payload of `VerifiedEncSig`). -/
structure Value1 where
  alice_keys : KeyPublicWithoutProof
  alice_bch_recv : Bytes
  contract_pair : ContractPair
  shared_keypair : ViewPair
  xmr_restore_height : Nat
  dec_sig : EcdsaSig
deriving DecidableEq, Repr

/-- `Value2` (payload of `MoneroLocked`; the contract pair is dropped). -/
structure Value2 where
  alice_keys : KeyPublicWithoutProof
  alice_bch_recv : Bytes
  shared_keypair : ViewPair
  xmr_restore_height : Nat
  dec_sig : EcdsaSig
deriving DecidableEq, Repr

/-- `Value3` (payload of `ProceedRefund`; re-adds the contract pair and the
triggering outpoint). -/
structure Value3 where
  alice_keys : KeyPublicWithoutProof
  alice_bch_recv : Bytes
  contract_pair : ContractPair
  shared_keypair : ViewPair
  xmr_restore_height : Nat
  dec_sig : EcdsaSig
  outpoint : OutPoint
deriving DecidableEq, Repr

/-- Bob's protocol `State`. -/
inductive State where
  | init
  | withAliceKey (v : Value0)
  | contractMatch (v : Value0)
  | verifiedEncSig (v : Value1)
  | moneroLocked (v : Value2)
  | proceedRefund (v : Value3)
  | swapSuccess (keys : KeyPair) (restore_height : Nat)
deriving DecidableEq, Repr

/-- The `Transition` events fed to the state machine. -/
inductive Transition where
  | msg0 (keys : KeyPublic) (receiving : Bytes)
  | contract (bch_address : Address) (xmr_address : Address)
  | encSig (e : EncSig)
  | xmrLockVerified (amount : Nat)
  | bchConfirmedTx (tx : Transaction) (conf : Nat)
  | setXmrRestoreHeight (height : Nat)
deriving DecidableEq, Repr

/-- The `Action` side effects the state machine requests. -/
inductive Action where
  | safeDelete
  | createXmrView (keypair : ViewPair)
  | lockBch (amount : Nat) (addr : Address)
  | watchXmr (addr : Address)
  | unlockBchFallback
  | tradeSuccess
deriving DecidableEq, Repr

/-- The protocol-logic `Error` values. -/
inductive Error where
  | invalidProof
  | invalidTimelock
  | invalidBchAddress
  | invalidXmrAddress
  | invalidSignature
  | invalidXmrAmount
  | invalidTransaction
  | invalidStateTransition
deriving DecidableEq, Repr

/-- The `Bob` record: current protocol state plus the immutable swap. -/
structure Bob where
  state : State
  swap : Swap
deriving DecidableEq, Repr

/-- `Bob::get_swaplock_enc_sig`: in `MoneroLocked`, the encrypted signature
over the double-SHA256 of Alice's receiving script. -/
def Bob.get_swaplock_enc_sig (c : Crypto) (bob : Bob) : Option EncSig :=
  match bob.state with
  | .moneroLocked props =>
    some (c.encryptedSign bob.swap.keys.ves props.alice_keys.spend_bch
      (c.sha256 (c.sha256 props.alice_bch_recv)))
  | _ => none

/-- `Bob::transition`, the pure state machine from `src/protocol/src/bob.rs`.
`none` marks a Rust panic (the only panic source reachable inside the
function body is `transaction.input[0]` on an empty input list in the
`MoneroLocked` arm). The `SetXmrRestoreHeight` event is intercepted before the
main match, exactly as in the source. -/
def Bob.transition (c : Crypto) (bob : Bob) (t : Transition) :
    Option (Bob × List Action × Option Error) :=
  match t with
  | .setXmrRestoreHeight height =>
    let st := match bob.state with
      | .withAliceKey v => State.withAliceKey { v with xmr_restore_height := height }
      | .contractMatch v => State.contractMatch { v with xmr_restore_height := height }
      | .verifiedEncSig v => State.verifiedEncSig { v with xmr_restore_height := height }
      | .moneroLocked v => State.moneroLocked { v with xmr_restore_height := height }
      | s => s
    some ({ bob with state := st }, [], none)
  | t =>
    match bob.state, t with
    | .init, .msg0 keys receiving =>
      if c.proofVerify keys.proof keys.spend_bch keys.monero_spend then
        match c.contractCreate 1000 bob.swap.bch_recv (c.vesPublic bob.swap.keys.ves)
            receiving keys.ves bob.swap.timelock1 bob.swap.timelock2
            bob.swap.bch_network bob.swap.bch_amount with
        | none => some (bob, [.safeDelete], some .invalidTimelock)
        | some contract_pair =>
          let shared_keypair : ViewPair :=
            { view := c.scalarAdd bob.swap.keys.monero_view keys.monero_view
              spend := c.pointAdd (c.fromPrivate bob.swap.keys.monero_spend) keys.monero_spend }
          let v : Value0 :=
            { alice_keys := keys.toWithoutProof
              alice_bch_recv := receiving
              contract_pair := contract_pair
              shared_keypair := shared_keypair
              xmr_restore_height := 0 }
          some ({ bob with state := .withAliceKey v },
                [.createXmrView shared_keypair], none)
      else
        some (bob, [.safeDelete], some .invalidProof)
    | .withAliceKey props, .contract bch_address xmr_address =>
      if c.cashAddress props.contract_pair.swaplock ≠ bch_address then
        some (bob, [], some .invalidBchAddress)
      else if xmr_address ≠ c.addressFromViewpair bob.swap.xmr_network props.shared_keypair then
        some (bob, [], some .invalidXmrAddress)
      else
        some ({ bob with state := .contractMatch props }, [], none)
    | .contractMatch props, .encSig enc_sig =>
      let bob_receiving_hash := c.sha256 (c.sha256 bob.swap.bch_recv)
      let dec_sig := c.adaptorDecrypt bob.swap.keys.monero_spend enc_sig
      if c.adaptorVerify props.alice_keys.ves bob_receiving_hash dec_sig then
        match c.sigFromCompact dec_sig with
        | none => some (bob, [.safeDelete], some .invalidSignature)
        | some ds =>
          -- self.get_contract().unwrap(): state is ContractMatch, so the
          -- unwrap yields exactly these two derived addresses
          let bch_address := c.cashAddress props.contract_pair.swaplock
          let xmr_address := c.addressFromViewpair bob.swap.xmr_network props.shared_keypair
          let v : Value1 :=
            { alice_keys := props.alice_keys
              alice_bch_recv := props.alice_bch_recv
              contract_pair := props.contract_pair
              shared_keypair := props.shared_keypair
              xmr_restore_height := props.xmr_restore_height
              dec_sig := ds }
          some ({ bob with state := .verifiedEncSig v },
                [.lockBch bob.swap.bch_amount bch_address, .watchXmr xmr_address], none)
      else
        some (bob, [.safeDelete], some .invalidSignature)
    | .verifiedEncSig props, .xmrLockVerified amount =>
      if amount ≠ bob.swap.xmr_amount then
        some (bob, [], some .invalidXmrAmount)
      else
        let v : Value2 :=
          { alice_keys := props.alice_keys
            alice_bch_recv := props.alice_bch_recv
            shared_keypair := props.shared_keypair
            xmr_restore_height := props.xmr_restore_height
            dec_sig := props.dec_sig }
        some ({ bob with state := .moneroLocked v }, [], none)
    | .verifiedEncSig props, .bchConfirmedTx transaction conf =>
      match c.analyzeTx props.contract_pair transaction with
      | some (outpoint, .toSwapLock) =>
        if conf < bob.swap.timelock1 then
          some (bob, [], none)
        else
          let v : Value3 :=
            { alice_keys := props.alice_keys
              alice_bch_recv := props.alice_bch_recv
              contract_pair := props.contract_pair
              shared_keypair := props.shared_keypair
              xmr_restore_height := props.xmr_restore_height
              dec_sig := props.dec_sig
              outpoint := outpoint }
          some ({ bob with state := .proceedRefund v }, [.unlockBchFallback], none)
      | some (outpoint, .toRefund) =>
        let v : Value3 :=
          { alice_keys := props.alice_keys
            alice_bch_recv := props.alice_bch_recv
            contract_pair := props.contract_pair
            shared_keypair := props.shared_keypair
            xmr_restore_height := props.xmr_restore_height
            dec_sig := props.dec_sig
            outpoint := outpoint }
        some ({ bob with state := .proceedRefund v }, [.unlockBchFallback], none)
      | none => some (bob, [], none)
    | .moneroLocked props, .bchConfirmedTx transaction _ =>
      match transaction.input.get? 0 with
      | none => none  -- transaction.input[0]: Rust panics (index out of bounds)
      | some txin =>
        match (c.instructions txin.script_sig).get? 2 with
        | some (.ok (.pushBytes v)) =>
          match c.sigFromDer v with
          | none => some (bob, [], some .invalidTransaction)
          | some der =>
            match c.adaptorSigFromBytes (c.serializeCompact der) with
            | none => some (bob, [], some .invalidTransaction)
            | some decsig =>
              -- self.get_swaplock_enc_sig().expect(..): state is MoneroLocked,
              -- so the expect yields exactly this encrypted signature
              let enc_sig := c.encryptedSign bob.swap.keys.ves props.alice_keys.spend_bch
                (c.sha256 (c.sha256 props.alice_bch_recv))
              let alice_spend := c.recoverDecryptionKey props.alice_keys.spend_bch decsig enc_sig
              let key_pair : KeyPair :=
                { view := props.shared_keypair.view
                  spend := c.scalarAdd bob.swap.keys.monero_spend alice_spend }
              some ({ bob with state := .swapSuccess key_pair props.xmr_restore_height },
                    [.tradeSuccess], none)
        | _ => some (bob, [], some .invalidTransaction)
    | _, _ => some (bob, [], some .invalidStateTransition)

/-- `Bob::refund`: from `ProceedRefund`, the two chained refund transactions. -/
def Bob.refund (c : Crypto) (bob : Bob) : Option (Transaction × Transaction) :=
  match bob.state with
  | .proceedRefund props =>
    let mining_fee := props.contract_pair.mining_fee
    let tx1 : Transaction :=
      { version := 2
        lock_time := 0
        input := [{ sequence := props.contract_pair.swaplock.timelock
                    previous_output := props.outpoint
                    script_sig := c.unlockingScript props.contract_pair.swaplock [] }]
        output := [{ value := bob.swap.bch_amount - mining_fee
                     script_pubkey := c.lockingScript props.contract_pair.refund }] }
    let tx2 : Transaction :=
      { version := 2
        lock_time := 0
        input := [{ sequence := 0
                    previous_output := { txid := c.txid tx1, vout := 0 }
                    script_sig := c.unlockingScript props.contract_pair.refund
                      (c.serializeDer props.dec_sig) }]
        output := [{ value := bob.swap.bch_amount - mining_fee * 2
                     script_pubkey := bob.swap.bch_recv }] }
    some (tx1, tx2)
  | _ => none

/-- The (state, event) constructor pairs handled by a dedicated arm of the
main match in `Bob::transition` (the transition table), excluding the
`SetXmrRestoreHeight` event which is intercepted before the match. -/
def tablePair : State → Transition → Bool
  | .init, .msg0 _ _ => true
  | .withAliceKey _, .contract _ _ => true
  | .contractMatch _, .encSig _ => true
  | .verifiedEncSig _, .xmrLockVerified _ => true
  | .verifiedEncSig _, .bchConfirmedTx _ _ => true
  | .moneroLocked _, .bchConfirmedTx _ _ => true
  | _, _ => false

/-! ### The runner (`Runner::priv_transition`) -/

/-- Environment for one executed action: whether its RPC side effects succeed,
and the block height `get_block_count` reports (consumed by
`Action::CreateXmrView`). -/
structure ActionEnv where
  ok : Bool
  height : Nat
deriving DecidableEq, Repr

/-- Observable side effects the runner performs while executing actions. -/
inductive Effect where
  | wallet (address : Address) (restore_height : Nat)
  | broadcast (tx : Transaction)
deriving DecidableEq, Repr

/-- Outcome of the runner's action loop: a Rust panic, an error returned with
`?` (the executed-action trace and effects so far are recorded), or success
with the final state that will be committed. -/
inductive RunResult where
  | panicked
  | failed (trace : List Action) (effects : List Effect)
  | ok (trace : List Action) (effects : List Effect) (final : Bob)
deriving DecidableEq, Repr

/-- Prepend one successfully executed action (with its effects) to the result
of running the remaining actions. -/
def RunResult.consA (r : RunResult) (a : Action) (efs : List Effect) : RunResult :=
  match r with
  | .panicked => .panicked
  | .failed tr e2 => .failed (a :: tr) (efs ++ e2)
  | .ok tr e2 fin => .ok (a :: tr) (efs ++ e2) fin

/-- The `for action in actions` loop of `Runner::priv_transition`, executing
the actions strictly in order over the evolving `new_state`. `env i` supplies
the outside world's answer for the i-th action. `CreateXmrView` feeds the
observed height back through an internal `SetXmrRestoreHeight` transition;
`UnlockBchFallback` builds both refund transactions via `Bob::refund` before
broadcasting the first and then the second (`.unwrap()` on either failure is a
panic, as is an absent refund pair). -/
def runActions (c : Crypto) (env : Nat → ActionEnv) :
    Nat → Bob → List Action → RunResult
  | _, st, [] => .ok [] [] st
  | i, st, a :: rest =>
    match a with
    | .createXmrView keypair =>
      if (env i).ok then
        let height := (env i).height
        match Bob.transition c st (.setXmrRestoreHeight height) with
        | none => .panicked
        | some (st2, _, _) =>
          (runActions c env (i + 1) st2 rest).consA a
            [.wallet (c.addressFromViewpair st.swap.xmr_network keypair) height]
      else .failed [] []
    | .unlockBchFallback =>
      match Bob.refund c st with
      | none => .panicked
      | some (tx1, tx2) =>
        if (env i).ok then
          (runActions c env (i + 1) st rest).consA a [.broadcast tx1, .broadcast tx2]
        else .panicked
    | a => (runActions c env (i + 1) st rest).consA a []

/-- Outcome of `Runner::priv_transition` as seen at its boundary: a panic, an
error return (`stored` is the runner's stored state afterwards, with the
trace of actions that did execute), or a successful commit. -/
inductive PrivOutcome where
  | panicked
  | err (stored : Bob) (trace : List Action) (effects : List Effect)
  | committed (stored : Bob) (trace : List Action) (effects : List Effect)
deriving DecidableEq, Repr

/-- `Runner::priv_transition`: run the pure transition on a clone of the
stored state; bail (state untouched) if it reports an error; otherwise execute
the actions in order and commit the resulting state only after all of them
succeeded. -/
def privTransition (c : Crypto) (env : Nat → ActionEnv) (r : Bob)
    (t : Transition) : PrivOutcome :=
  match Bob.transition c r t with
  | none => .panicked
  | some (_, _, some _) => .err r [] []
  | some (new_state, actions, none) =>
    match runActions c env 0 new_state actions with
    | .panicked => .panicked
    | .failed tr efs => .err r tr efs
    | .ok tr efs fin => .committed fin tr efs

/-! ### The blockchain scan (`scan_address_conf_tx`) -/

/-- One entry of a `blockchain.address.get_history` response: the containing
block height (0 while still in the mempool) and the transaction hash. -/
structure HistEntry where
  height : Nat
  tx_hash : Nat
deriving DecidableEq, Repr

/-- The `result` payload of a verbose `blockchain.transaction.get` response:
the reported confirmation count and the raw transaction hex. -/
structure TxGetResult where
  confirmations : Int
  hex : Bytes
deriving DecidableEq, Repr

/-- `scan_address_conf_tx` from `src/protocol/src/blockchain/mod.rs`:
walk the address history, skip entries whose height is 0 (mempool), fetch each
remaining transaction, skip those under the confirmation floor, and decode the
rest. `lookup` stands for the `blockchain.transaction.get` round trip and
`decode` for `bitcoincash::consensus::deserialize`. -/
def scan_address_conf_tx (lookup : Nat → TxGetResult) (decode : Bytes → Transaction)
    (min_conf : Int) : List HistEntry → List Transaction
  | [] => []
  | e :: rest =>
    if e.height = 0 then
      scan_address_conf_tx lookup decode min_conf rest
    else if (lookup e.tx_hash).confirmations < min_conf then
      scan_address_conf_tx lookup decode min_conf rest
    else
      decode (lookup e.tx_hash).hex :: scan_address_conf_tx lookup decode min_conf rest

/-! ### The multiplexer (`TcpElectrum`) -/

/-- Status of a registered one-shot completion slot: `alive` while its `send`
caller still awaits the receiver, `dead` once the caller has dropped it (e.g.
after `send` returned early on a write error). -/
inductive Slot where
  | alive
  | dead
deriving DecidableEq, Repr

/-- Shared multiplexer state: the pending table (`futures`, keyed by request
id), the lines delivered to a live `send` caller, and the lines published to
subscribers as notifications. -/
structure MuxState where
  pending : List (Nat × Slot)
  delivered : List (Nat × Nat)
  notified : List Nat
deriving DecidableEq, Repr

/-- Lookup in the pending table (`HashMap::get`-style; table keys are kept
distinct because ids come from a monotonically increasing counter). -/
def lookupSlot (i : Nat) : List (Nat × Slot) → Option Slot
  | [] => none
  | p :: rest => if p.1 = i then some p.2 else lookupSlot i rest

/-- Removal from the pending table (`HashMap::remove`). -/
def removeSlot (i : Nat) : List (Nat × Slot) → List (Nat × Slot)
  | [] => []
  | p :: rest => if p.1 = i then rest else p :: removeSlot i rest

/-- One inbound line: `id` is the parse of the `HasId` envelope (`none` when
the line exposes no integer id), `raw` the opaque line content. -/
structure Line where
  id : Option Nat
  raw : Nat
deriving DecidableEq, Repr

/-- One iteration of `TcpElectrum::process_reads`: a line without an id is
broadcast to subscribers; a line with id `i` removes the pending slot for `i`
(if any) and hands the raw line to it — a dead slot swallows the line
(`let _ = recv.send(buf)`), and a line whose id has no pending slot is
dropped. -/
def processLine (s : MuxState) (l : Line) : MuxState :=
  match l.id with
  | none => { s with notified := s.notified ++ [l.raw] }
  | some i =>
    match lookupSlot i s.pending with
    | none => s
    | some .alive =>
      { pending := removeSlot i s.pending
        delivered := s.delivered ++ [(i, l.raw)]
        notified := s.notified }
    | some .dead =>
      { pending := removeSlot i s.pending
        delivered := s.delivered
        notified := s.notified }

/-- The read loop of `TcpElectrum::process_reads` over a finite inbound
stream. -/
def processLines (s : MuxState) : List Line → MuxState
  | [] => s
  | l :: ls => processLines (processLine s l) ls

/-- Number of lines delivered to the caller awaiting id `i`. -/
def countD (i : Nat) (s : MuxState) : Nat :=
  (s.delivered.filter (fun p => p.1 == i)).length

/-- The successive operations of one `TcpElectrum::send` call, in program
order. -/
inductive SendStep where
  | allocId
  | registerSlot
  | writeFrame
  | awaitResponse
deriving DecidableEq, Repr, BEq

/-- Program order of `TcpElectrum::send`: allocate the id, register the
one-shot slot in the pending table, write the frame, await the slot. -/
def sendSteps : List SendStep := [.allocId, .registerSlot, .writeFrame, .awaitResponse]

/-- Effect of `send` on the pending table once the slot for the fresh id is
registered (before the frame is written). -/
def sendRegister (s : MuxState) (i : Nat) : MuxState :=
  { s with pending := s.pending ++ [(i, .alive)] }

/-- The caller of `send` abandons the wait for id `i` (its oneshot receiver is
dropped); the registered slot stays in the table but is dead. -/
def dropCaller (s : MuxState) (i : Nat) : MuxState :=
  { s with pending := s.pending.map (fun p => if p.1 = i then (p.1, Slot.dead) else p) }

/-- Net multiplexer state after a `send` whose socket write failed: the slot
was registered before the write, the error path returns without removing it,
and the caller's receiver is dropped as `send` returns the I/O error. -/
def sendWriteFailed (s : MuxState) (i : Nat) : MuxState :=
  dropCaller (sendRegister s i) i

/-! ### Concrete sample values (used by counterexamples and witnesses) -/

/-- Sample contract pair. -/
def exCP : ContractPair :=
  { swaplock := { timelock := 1000, tag := 11 }
    refund := { timelock := 2000, tag := 22 }
    mining_fee := 700 }

/-- Sample counterparty public keys (proof dropped). -/
def exKeysWP : KeyPublicWithoutProof :=
  { spend_bch := 3, monero_spend := 4, monero_view := 5, ves := 6 }

/-- Sample counterparty public keys with proof. -/
def exKeyPublic : KeyPublic :=
  { proof := 2, spend_bch := 3, monero_spend := 4, monero_view := 5, ves := 6 }

/-- Sample immutable swap record. -/
def exSwap : Swap :=
  { keys := { monero_spend := 7, monero_view := 8, ves := 9 }
    bch_recv := [1, 2, 3]
    bch_amount := 100000
    xmr_amount := 5000
    timelock1 := 3
    timelock2 := 6
    bch_network := 0
    xmr_network := 0 }

/-- Sample `Value2` payload (state `MoneroLocked`). -/
def exV2 : Value2 :=
  { alice_keys := exKeysWP
    alice_bch_recv := [4, 5]
    shared_keypair := { view := 13, spend := 14 }
    xmr_restore_height := 0
    dec_sig := 15 }

/-- Sample `Value3` payload (state `ProceedRefund`). -/
def exV3 : Value3 :=
  { alice_keys := exKeysWP
    alice_bch_recv := [4, 5]
    contract_pair := exCP
    shared_keypair := { view := 13, spend := 14 }
    xmr_restore_height := 0
    dec_sig := 15
    outpoint := { txid := 16, vout := 1 } }

/-- Default concrete crypto oracle (contract construction rejects the
timelocks, i.e. returns `none`). -/
def cdef : Crypto :=
  { proofVerify := fun _ _ _ => true
    contractCreate := fun _ _ _ _ _ _ _ _ _ => none
    scalarAdd := fun a b => a + b
    pointAdd := fun a b => a + b
    fromPrivate := fun a => a
    vesPublic := fun a => a
    sha256 := fun b => b
    addressFromViewpair := fun _ v => v.view
    cashAddress := fun ct => ct.tag
    lockingScript := fun ct => [ct.tag]
    unlockingScript := fun ct w => ct.tag :: w
    analyzeTx := fun _ _ => none
    adaptorDecrypt := fun _ e => e
    adaptorVerify := fun _ _ _ => true
    sigFromCompact := fun s => some s
    encryptedSign := fun _ _ _ => 0
    instructions := fun b => b.map (fun n => Except.ok (Instruction.op n))
    sigFromDer := fun _ => none
    serializeCompact := fun s => [s]
    adaptorSigFromBytes := fun _ => none
    recoverDecryptionKey := fun _ _ _ => 0
    serializeDer := fun s => [s]
    txid := fun _ => 0 }

/-- Crypto oracle whose cross-curve proof verifier rejects. -/
def cReject : Crypto := { cdef with proofVerify := fun _ _ _ => false }

/-- Crypto oracle that accepts the proof and constructs the sample contract
pair. -/
def cAccept : Crypto := { cdef with contractCreate := fun _ _ _ _ _ _ _ _ _ => some exCP }

/-- Sample action environment where every RPC succeeds at height 42. -/
def envOk : Nat → ActionEnv := fun _ => { ok := true, height := 42 }

/-- A transaction with an empty input list (consensus-decodable, but the
`MoneroLocked` arm indexes `input[0]` unguarded). -/
def txEmpty : Transaction := { version := 2, lock_time := 0, input := [], output := [] }

/-! ### Helper lemmas about the multiplexer model -/

theorem lookupSlot_none_iff {i : Nat} : ∀ {l : List (Nat × Slot)},
    lookupSlot i l = none ↔ i ∉ l.map Prod.fst := by
  intro l
  induction l with
  | nil => simp [lookupSlot]
  | cons p rest ih =>
    by_cases hp : p.1 = i
    · simp [lookupSlot, hp]
    · simp [lookupSlot, hp, ih, Ne.symm hp]

theorem removeSlot_sublist (i : Nat) :
    ∀ l : List (Nat × Slot), List.Sublist (removeSlot i l) l := by
  intro l
  induction l with
  | nil => simp [removeSlot]
  | cons p rest ih =>
    by_cases hp : p.1 = i
    · rw [removeSlot, if_pos hp]
      exact (List.Sublist.refl rest).cons p
    · rw [removeSlot, if_neg hp]
      exact ih.cons₂ p

theorem keys_nodup_removeSlot {i : Nat} {l : List (Nat × Slot)}
    (h : (l.map Prod.fst).Nodup) : ((removeSlot i l).map Prod.fst).Nodup :=
  List.Nodup.sublist ((removeSlot_sublist i l).map Prod.fst) h

theorem lookupSlot_none_removeSlot {i j : Nat} {l : List (Nat × Slot)}
    (h : lookupSlot i l = none) : lookupSlot i (removeSlot j l) = none := by
  rw [lookupSlot_none_iff] at h ⊢
  intro hmem
  exact h (((removeSlot_sublist j l).map Prod.fst).subset hmem)

theorem lookupSlot_removeSlot_self {i : Nat} : ∀ {l : List (Nat × Slot)},
    (l.map Prod.fst).Nodup → lookupSlot i (removeSlot i l) = none := by
  intro l
  induction l with
  | nil => intro _; rfl
  | cons p rest ih =>
    intro hnd
    by_cases hp : p.1 = i
    · rw [removeSlot, if_pos hp, lookupSlot_none_iff, ← hp]
      exact (List.nodup_cons.mp (by simpa using hnd)).1
    · rw [removeSlot, if_neg hp, lookupSlot, if_neg hp]
      exact ih (List.nodup_cons.mp (by simpa using hnd)).2

/-- Once id `i` has no pending slot, the read loop neither delivers another
line to it nor re-registers it (the loop never inserts into the table). -/
theorem processLines_no_pending (i : Nat) : ∀ (lines : List Line) (s : MuxState),
    lookupSlot i s.pending = none →
    countD i (processLines s lines) = countD i s ∧
    lookupSlot i (processLines s lines).pending = none := by
  intro lines
  induction lines with
  | nil => intro s h; exact ⟨rfl, h⟩
  | cons l ls ih =>
    intro s h
    have step : countD i (processLine s l) = countD i s ∧
        lookupSlot i (processLine s l).pending = none := by
      cases hid : l.id with
      | none =>
        rw [show processLine s l = ⟨s.pending, s.delivered, s.notified ++ [l.raw]⟩ by
          simp [processLine, hid]]
        exact ⟨rfl, h⟩
      | some j =>
        cases hsl : lookupSlot j s.pending with
        | none =>
          rw [show processLine s l = s by simp [processLine, hid, hsl]]
          exact ⟨rfl, h⟩
        | some slot =>
          have hji : j ≠ i := by
            intro hh
            subst hh
            rw [h] at hsl
            exact Option.noConfusion hsl
          cases slot with
          | alive =>
            rw [show processLine s l =
                ⟨removeSlot j s.pending, s.delivered ++ [(j, l.raw)], s.notified⟩ by
              simp [processLine, hid, hsl]]
            refine ⟨?_, lookupSlot_none_removeSlot h⟩
            simp [countD, List.filter_append, hji]
          | dead =>
            rw [show processLine s l =
                ⟨removeSlot j s.pending, s.delivered, s.notified⟩ by
              simp [processLine, hid, hsl]]
            exact ⟨rfl, lookupSlot_none_removeSlot h⟩
    refine ⟨?_, ?_⟩
    · simp only [processLines]
      rw [(ih _ step.2).1, step.1]
    · simp only [processLines]
      exact (ih _ step.2).2

/-- At-most-once delivery: over any inbound line sequence, the caller of id
`i` receives at most one additional line (the first matching line removes the
slot; the loop never re-adds it). -/
theorem processLines_at_most_once (i : Nat) : ∀ (lines : List Line) (s : MuxState),
    (s.pending.map Prod.fst).Nodup →
    countD i (processLines s lines) ≤ countD i s + 1 := by
  intro lines
  induction lines with
  | nil => intro s _; exact Nat.le_succ _
  | cons l ls ih =>
    intro s hnd
    simp only [processLines]
    cases hid : l.id with
    | none =>
      rw [show processLine s l = { s with notified := s.notified ++ [l.raw] } by
        simp [processLine, hid]]
      exact ih _ hnd
    | some j =>
      cases hsl : lookupSlot j s.pending with
      | none =>
        rw [show processLine s l = s by simp [processLine, hid, hsl]]
        exact ih _ hnd
      | some slot =>
        cases slot with
        | dead =>
          rw [show processLine s l =
              ⟨removeSlot j s.pending, s.delivered, s.notified⟩ by
            simp [processLine, hid, hsl]]
          exact ih _ (keys_nodup_removeSlot hnd)
        | alive =>
          rw [show processLine s l =
              ⟨removeSlot j s.pending, s.delivered ++ [(j, l.raw)], s.notified⟩ by
            simp [processLine, hid, hsl]]
          by_cases hji : j = i
          · subst hji
            have hnone : lookupSlot j (removeSlot j s.pending) = none :=
              lookupSlot_removeSlot_self hnd
            rw [(processLines_no_pending j ls _ hnone).1]
            simp [countD, List.filter_append]
          · have heq : countD i
                ⟨removeSlot j s.pending, s.delivered ++ [(j, l.raw)], s.notified⟩ =
                countD i s := by
              simp [countD, List.filter_append, hji]
            have h2 := ih ⟨removeSlot j s.pending, s.delivered ++ [(j, l.raw)], s.notified⟩
              (keys_nodup_removeSlot hnd)
            rw [heq] at h2
            exact h2

/-- With id `i` absent from the table, appending a fresh slot and then marking
it dead (the caller dropped its receiver) leaves the rest of the table
untouched. -/
theorem sendWriteFailed_pending {i : Nat} : ∀ {l : List (Nat × Slot)},
    lookupSlot i l = none →
    (l ++ [(i, Slot.alive)]).map
        (fun p => if p.1 = i then (p.1, Slot.dead) else p) = l ++ [(i, Slot.dead)] := by
  intro l
  induction l with
  | nil => simp
  | cons p rest ih =>
    intro h
    by_cases hp : p.1 = i
    · rw [lookupSlot, if_pos hp] at h
      exact Option.noConfusion h
    · rw [lookupSlot, if_neg hp] at h
      simp only [List.cons_append, List.map_cons, if_neg hp, ih h]

theorem lookupSlot_append_self {i : Nat} {sl : Slot} : ∀ {l : List (Nat × Slot)},
    lookupSlot i l = none → lookupSlot i (l ++ [(i, sl)]) = some sl := by
  intro l
  induction l with
  | nil => intro _; simp [lookupSlot]
  | cons p rest ih =>
    intro h
    by_cases hp : p.1 = i
    · rw [lookupSlot, if_pos hp] at h
      exact Option.noConfusion h
    · rw [lookupSlot, if_neg hp] at h
      rw [List.cons_append, lookupSlot, if_neg hp]
      exact ih h

theorem removeSlot_append_self {i : Nat} {sl : Slot} : ∀ {l : List (Nat × Slot)},
    lookupSlot i l = none → removeSlot i (l ++ [(i, sl)]) = l := by
  intro l
  induction l with
  | nil => intro _; simp [removeSlot]
  | cons p rest ih =>
    intro h
    by_cases hp : p.1 = i
    · rw [lookupSlot, if_pos hp] at h
      exact Option.noConfusion h
    · rw [lookupSlot, if_neg hp] at h
      rw [List.cons_append, removeSlot, if_neg hp, ih h]

/-! ### Helper lemmas about the runner's action loop -/

theorem consA_trichotomy {r : RunResult} (a : Action) (efs : List Effect)
    (rest : List Action)
    (h : r = .panicked ∨
        (∃ tr0 e0, r = .failed tr0 e0 ∧ ∃ r2, tr0 ++ r2 = rest) ∨
        (∃ e0 fin, r = .ok rest e0 fin)) :
    r.consA a efs = .panicked ∨
    (∃ tr e2, r.consA a efs = .failed tr e2 ∧ ∃ r2, tr ++ r2 = a :: rest) ∨
    (∃ e2 fin, r.consA a efs = .ok (a :: rest) e2 fin) := by
  rcases h with h | ⟨tr0, e0, heq, r2, hr2⟩ | ⟨e0, fin, heq⟩
  · rw [h]
    left
    rfl
  · rw [heq]
    right; left
    exact ⟨a :: tr0, efs ++ e0, rfl, r2, by rw [List.cons_append, hr2]⟩
  · rw [heq]
    right; right
    exact ⟨efs ++ e0, fin, rfl⟩

/-- The action loop either panics, fails after executing (in order) a prefix
of the action list, or succeeds having executed exactly the whole list in
order. -/
theorem runActions_cases (c : Crypto) (env : Nat → ActionEnv) :
    ∀ (acts : List Action) (i : Nat) (st : Bob),
      runActions c env i st acts = .panicked ∨
      (∃ tr efs, runActions c env i st acts = .failed tr efs ∧
          ∃ r2, tr ++ r2 = acts) ∨
      (∃ efs fin, runActions c env i st acts = .ok acts efs fin) := by
  intro acts
  induction acts with
  | nil =>
    intro i st
    right; right
    exact ⟨[], st, rfl⟩
  | cons a rest ih =>
    intro i st
    cases a with
    | createXmrView kp =>
      cases hok : (env i).ok with
      | false =>
        have hstep : runActions c env i st (.createXmrView kp :: rest) = .failed [] [] := by
          simp [runActions, hok]
        rw [hstep]
        right; left
        exact ⟨[], [], rfl, .createXmrView kp :: rest, rfl⟩
      | true =>
        cases htr : Bob.transition c st (.setXmrRestoreHeight (env i).height) with
        | none =>
          have hstep : runActions c env i st (.createXmrView kp :: rest) = .panicked := by
            simp [runActions, hok, htr]
          rw [hstep]
          left
          rfl
        | some p =>
          obtain ⟨st2, acts2, err2⟩ := p
          have hstep : runActions c env i st (.createXmrView kp :: rest) =
              (runActions c env (i + 1) st2 rest).consA (.createXmrView kp)
                [.wallet (c.addressFromViewpair st.swap.xmr_network kp) (env i).height] := by
            simp [runActions, hok, htr]
          rw [hstep]
          exact consA_trichotomy _ _ rest (ih (i + 1) st2)
    | unlockBchFallback =>
      cases hrf : Bob.refund c st with
      | none =>
        have hstep : runActions c env i st (.unlockBchFallback :: rest) = .panicked := by
          simp [runActions, hrf]
        rw [hstep]
        left
        rfl
      | some p =>
        obtain ⟨tx1, tx2⟩ := p
        cases hok : (env i).ok with
        | false =>
          have hstep : runActions c env i st (.unlockBchFallback :: rest) = .panicked := by
            simp [runActions, hrf, hok]
          rw [hstep]
          left
          rfl
        | true =>
          have hstep : runActions c env i st (.unlockBchFallback :: rest) =
              (runActions c env (i + 1) st rest).consA .unlockBchFallback
                [.broadcast tx1, .broadcast tx2] := by
            simp [runActions, hrf, hok]
          rw [hstep]
          exact consA_trichotomy _ _ rest (ih (i + 1) st)
    | safeDelete =>
      have hstep : runActions c env i st (.safeDelete :: rest) =
          (runActions c env (i + 1) st rest).consA .safeDelete [] := by
        simp [runActions]
      rw [hstep]
      exact consA_trichotomy _ _ rest (ih (i + 1) st)
    | lockBch amt addr =>
      have hstep : runActions c env i st (.lockBch amt addr :: rest) =
          (runActions c env (i + 1) st rest).consA (.lockBch amt addr) [] := by
        simp [runActions]
      rw [hstep]
      exact consA_trichotomy _ _ rest (ih (i + 1) st)
    | watchXmr addr =>
      have hstep : runActions c env i st (.watchXmr addr :: rest) =
          (runActions c env (i + 1) st rest).consA (.watchXmr addr) [] := by
        simp [runActions]
      rw [hstep]
      exact consA_trichotomy _ _ rest (ih (i + 1) st)
    | tradeSuccess =>
      have hstep : runActions c env i st (.tradeSuccess :: rest) =
          (runActions c env (i + 1) st rest).consA .tradeSuccess [] := by
        simp [runActions]
      rw [hstep]
      exact consA_trichotomy _ _ rest (ih (i + 1) st)

theorem runActions_failed_suffix {c : Crypto} {env : Nat → ActionEnv} {i : Nat}
    {st : Bob} {acts tr : List Action} {efs : List Effect}
    (h : runActions c env i st acts = .failed tr efs) : ∃ r2, tr ++ r2 = acts := by
  rcases runActions_cases c env acts i st with hp | ⟨tr2, efs2, heq, r2, hr2⟩ | ⟨efs2, fin2, heq⟩
  · rw [h] at hp
    exact absurd hp (by simp)
  · rw [h] at heq
    injection heq with h1 h2
    exact ⟨r2, by rw [h1]; exact hr2⟩
  · rw [h] at heq
    exact absurd heq (by simp)

theorem runActions_ok_trace {c : Crypto} {env : Nat → ActionEnv} {i : Nat}
    {st : Bob} {acts tr : List Action} {efs : List Effect} {fin : Bob}
    (h : runActions c env i st acts = .ok tr efs fin) : tr = acts := by
  rcases runActions_cases c env acts i st with hp | ⟨tr2, efs2, heq, r2, hr2⟩ | ⟨efs2, fin2, heq⟩
  · rw [h] at hp
    exact absurd hp (by simp)
  · rw [h] at heq
    exact absurd heq (by simp)
  · rw [h] at heq
    exact (RunResult.ok.inj heq).1

/-! ### Claim theorems -/

/-- C1: in the `MoneroLocked` state, a confirmed-BCH-tx event whose
transaction has an empty input list makes `Bob::transition` abort with a Rust
panic (`transaction.input[0]` indexes out of bounds), modelled here as `none`
— it does not return the `InvalidTransaction` error value the claim
requires. -/
theorem moneroLocked_empty_input_tx_panics :
    Bob.transition cdef ⟨.moneroLocked exV2, exSwap⟩ (.bchConfirmedTx txEmpty 3) = none ∧
    (decide (Bob.transition cdef ⟨.moneroLocked exV2, exSwap⟩ (.bchConfirmedTx txEmpty 3) =
        some (⟨.moneroLocked exV2, exSwap⟩, [], some .invalidTransaction)) = false) :=
  ⟨rfl, by decide⟩

/-- C2 counterexample: in the `ProceedRefund` state the set-restore-height
transition does NOT update the restore-height field — the state comes back
unchanged (field still 0, not the requested 7), refuting the claim's inclusion
of `ProceedRefund` among the updated variants. -/
theorem set_restore_height_proceedRefund_cex :
    Bob.transition cdef ⟨.proceedRefund exV3, exSwap⟩ (.setXmrRestoreHeight 7) =
      some (⟨.proceedRefund exV3, exSwap⟩, [], none) ∧
    exV3.xmr_restore_height = 0 ∧
    (decide (Bob.transition cdef ⟨.proceedRefund exV3, exSwap⟩ (.setXmrRestoreHeight 7) =
        some (⟨.proceedRefund { exV3 with xmr_restore_height := 7 }, exSwap⟩, [], none))
      = false) :=
  ⟨rfl, rfl, by decide⟩

/-- C2 amended: the set-restore-height transition updates the restore-height
field, leaving every other field unchanged and producing no actions and no
error, exactly for the `WithAliceKey`, `ContractMatch`, `VerifiedEncSig`
and `MoneroLocked` variants; the `ProceedRefund` variant (although it carries
the field) is returned entirely unchanged, with no actions and no error. -/
theorem set_restore_height_frame :
    (∀ (c : Crypto) (sw : Swap) (v : Value0) (h : Nat),
        Bob.transition c ⟨.withAliceKey v, sw⟩ (.setXmrRestoreHeight h) =
          some (⟨.withAliceKey { v with xmr_restore_height := h }, sw⟩, [], none)) ∧
    (∀ (c : Crypto) (sw : Swap) (v : Value0) (h : Nat),
        Bob.transition c ⟨.contractMatch v, sw⟩ (.setXmrRestoreHeight h) =
          some (⟨.contractMatch { v with xmr_restore_height := h }, sw⟩, [], none)) ∧
    (∀ (c : Crypto) (sw : Swap) (v : Value1) (h : Nat),
        Bob.transition c ⟨.verifiedEncSig v, sw⟩ (.setXmrRestoreHeight h) =
          some (⟨.verifiedEncSig { v with xmr_restore_height := h }, sw⟩, [], none)) ∧
    (∀ (c : Crypto) (sw : Swap) (v : Value2) (h : Nat),
        Bob.transition c ⟨.moneroLocked v, sw⟩ (.setXmrRestoreHeight h) =
          some (⟨.moneroLocked { v with xmr_restore_height := h }, sw⟩, [], none)) ∧
    (∀ (c : Crypto) (sw : Swap) (v : Value3) (h : Nat),
        Bob.transition c ⟨.proceedRefund v, sw⟩ (.setXmrRestoreHeight h) =
          some (⟨.proceedRefund v, sw⟩, [], none)) :=
  ⟨fun _ _ _ _ => rfl, fun _ _ _ _ => rfl, fun _ _ _ _ => rfl,
   fun _ _ _ _ => rfl, fun _ _ _ _ => rfl⟩

/-- C3 counterexample: the set-restore-height event on the `Init` state (a
pair absent from the transition table) returns the unchanged state with NO
error at all — not the `InvalidStateTransition` error the claim requires. -/
theorem set_restore_height_init_cex :
    Bob.transition cdef ⟨.init, exSwap⟩ (.setXmrRestoreHeight 5) =
      some (⟨.init, exSwap⟩, [], none) ∧
    (decide (Bob.transition cdef ⟨.init, exSwap⟩ (.setXmrRestoreHeight 5) =
        some (⟨.init, exSwap⟩, [], some .invalidStateTransition)) = false) :=
  ⟨rfl, by decide⟩

/-- C3 amended: every (state, transition) pair absent from the transition
table whose event is NOT set-restore-height returns the original state
unchanged together with `InvalidStateTransition` and no actions; the
set-restore-height event is intercepted before the table and never errors —
on states without a restore-height field (`Init`, `SwapSuccess`) it returns
the state unchanged with no actions and no error. -/
theorem absent_pairs_rejected :
    (∀ (c : Crypto) (st : State) (sw : Swap) (t : Transition),
        tablePair st t = false →
        (∀ h, t ≠ Transition.setXmrRestoreHeight h) →
        Bob.transition c ⟨st, sw⟩ t =
          some (⟨st, sw⟩, [], some .invalidStateTransition)) ∧
    (∀ (c : Crypto) (sw : Swap) (h : Nat),
        Bob.transition c ⟨.init, sw⟩ (.setXmrRestoreHeight h) =
          some (⟨.init, sw⟩, [], none)) ∧
    (∀ (c : Crypto) (sw : Swap) (k : KeyPair) (rh h : Nat),
        Bob.transition c ⟨.swapSuccess k rh, sw⟩ (.setXmrRestoreHeight h) =
          some (⟨.swapSuccess k rh, sw⟩, [], none)) := by
  refine ⟨?_, fun _ _ _ => rfl, fun _ _ _ _ _ => rfl⟩
  intro c st sw t htab hns
  cases t <;> try (exact absurd rfl (hns _))
  all_goals cases st <;> first | rfl | simp [tablePair] at htab

/-- C3 amended witness: an absent pair at a concrete input. -/
theorem absent_pairs_rejected_witness :
    Bob.transition cdef ⟨.swapSuccess ⟨1, 2⟩ 0, exSwap⟩ (.encSig 0) =
      some (⟨.swapSuccess ⟨1, 2⟩ 0, exSwap⟩, [], some .invalidStateTransition) :=
  absent_pairs_rejected.1 cdef (.swapSuccess ⟨1, 2⟩ 0) exSwap (.encSig 0) rfl
    (fun _ heq => Transition.noConfusion heq)

/-- C9: `scan_address_conf_tx` returns exactly the decoded transactions of the
history entries that are not in the mempool (height ≠ 0) and whose reported
confirmation count is at least the configured minimum; in particular no
mempool entry and no under-confirmed entry contributes a transaction. -/
theorem scan_filters_mempool_and_low_conf :
    ∀ (lookup : Nat → TxGetResult) (decode : Bytes → Transaction) (min_conf : Int)
      (entries : List HistEntry),
      scan_address_conf_tx lookup decode min_conf entries =
        (entries.filter (fun e =>
            decide (e.height ≠ 0 ∧ min_conf ≤ (lookup e.tx_hash).confirmations))).map
          (fun e => decode (lookup e.tx_hash).hex) := by
  intro lookup decode mc entries
  induction entries with
  | nil => rfl
  | cons e rest ih =>
    by_cases h0 : e.height = 0
    · simp [scan_address_conf_tx, h0, ih]
    · by_cases hc : (lookup e.tx_hash).confirmations < mc
      · have hnot : ¬ mc ≤ (lookup e.tx_hash).confirmations := not_le.mpr hc
        simp [scan_address_conf_tx, h0, hc, hnot, ih]
      · have hle : mc ≤ (lookup e.tx_hash).confirmations := not_lt.mp hc
        simp [scan_address_conf_tx, h0, hc, hle, ih]

/-- C5: from any `ProceedRefund` state, `Bob::refund` returns two chained
transactions, fully built as one pure value: the first spends the recorded
SwapLock outpoint via the SwapLock refund-path unlocking script (sequence =
the SwapLock timelock) and pays the swap's BCH amount minus one mining fee to
the Refund contract's locking script; the second's sole input references the
first transaction's output at index 0, uses the Refund unlocking script
parameterized by the previously verified decrypted signature, and pays the
BCH amount minus two mining fees to this node's own receiving script; the
runner's `UnlockBchFallback` handler then broadcasts exactly these two,
first then second. -/
theorem refund_two_chained_txs :
    ∀ (c : Crypto) (sw : Swap) (v : Value3),
      ∃ tx1 tx2,
        Bob.refund c ⟨.proceedRefund v, sw⟩ = some (tx1, tx2) ∧
        tx1.input = [{ sequence := v.contract_pair.swaplock.timelock
                       previous_output := v.outpoint
                       script_sig := c.unlockingScript v.contract_pair.swaplock [] }] ∧
        tx1.output = [{ value := sw.bch_amount - v.contract_pair.mining_fee
                        script_pubkey := c.lockingScript v.contract_pair.refund }] ∧
        tx2.input = [{ sequence := 0
                       previous_output := { txid := c.txid tx1, vout := 0 }
                       script_sig := c.unlockingScript v.contract_pair.refund
                         (c.serializeDer v.dec_sig) }] ∧
        tx2.output = [{ value := sw.bch_amount - v.contract_pair.mining_fee * 2
                        script_pubkey := sw.bch_recv }] ∧
        ∀ (env : Nat → ActionEnv) (i : Nat),
          runActions c env i ⟨.proceedRefund v, sw⟩ [.unlockBchFallback] =
            if (env i).ok then
              .ok [.unlockBchFallback] [.broadcast tx1, .broadcast tx2]
                ⟨.proceedRefund v, sw⟩
            else .panicked :=
  fun _ _ _ => ⟨_, _, rfl, rfl, rfl, rfl, rfl, fun _ _ => rfl⟩

/-- C7: in the `Init` state, a key-exchange event whose cross-curve proof
fails verification yields the unchanged `Init` state, the abort-and-purge
action and `InvalidProof` (no contract is constructed); if the proof verifies
but contract construction rejects the timelocks, the result is the unchanged
`Init` state, abort-and-purge and `InvalidTimelock`. -/
theorem init_msg0_error_paths :
    (∀ (c : Crypto) (sw : Swap) (keys : KeyPublic) (receiving : Bytes),
        c.proofVerify keys.proof keys.spend_bch keys.monero_spend = false →
        Bob.transition c ⟨.init, sw⟩ (.msg0 keys receiving) =
          some (⟨.init, sw⟩, [.safeDelete], some .invalidProof)) ∧
    (∀ (c : Crypto) (sw : Swap) (keys : KeyPublic) (receiving : Bytes),
        c.proofVerify keys.proof keys.spend_bch keys.monero_spend = true →
        c.contractCreate 1000 sw.bch_recv (c.vesPublic sw.keys.ves) receiving keys.ves
            sw.timelock1 sw.timelock2 sw.bch_network sw.bch_amount = none →
        Bob.transition c ⟨.init, sw⟩ (.msg0 keys receiving) =
          some (⟨.init, sw⟩, [.safeDelete], some .invalidTimelock)) := by
  constructor
  · intro c sw keys receiving hpf
    simp [Bob.transition, hpf]
  · intro c sw keys receiving hpf hcc
    simp [Bob.transition, hpf, hcc]

/-- C7 witness: both error paths realized at concrete inputs. -/
theorem init_msg0_error_paths_witness :
    Bob.transition cReject ⟨.init, exSwap⟩ (.msg0 exKeyPublic [9]) =
      some (⟨.init, exSwap⟩, [.safeDelete], some .invalidProof) ∧
    Bob.transition cdef ⟨.init, exSwap⟩ (.msg0 exKeyPublic [9]) =
      some (⟨.init, exSwap⟩, [.safeDelete], some .invalidTimelock) :=
  ⟨init_msg0_error_paths.1 cReject exSwap exKeyPublic [9] rfl,
   init_msg0_error_paths.2 cdef exSwap exKeyPublic [9] rfl rfl⟩

/-- C8: when the `Init`-state key exchange succeeds, the shared Monero keypair
stored in the resulting `WithAliceKey` state (and handed to the
create-view-wallet action) has view scalar equal to the scalar sum of this
node's Monero view private scalar and the counterparty's, and spend key equal
to the elliptic-curve point sum of this node's Monero spend public key and
the counterparty's Monero spend public key — no fresh key is generated. -/
theorem shared_keypair_additive :
    ∀ (c : Crypto) (sw : Swap) (keys : KeyPublic) (receiving : Bytes) (cp : ContractPair),
      c.proofVerify keys.proof keys.spend_bch keys.monero_spend = true →
      c.contractCreate 1000 sw.bch_recv (c.vesPublic sw.keys.ves) receiving keys.ves
          sw.timelock1 sw.timelock2 sw.bch_network sw.bch_amount = some cp →
      ∃ v : Value0,
        Bob.transition c ⟨.init, sw⟩ (.msg0 keys receiving) =
          some (⟨.withAliceKey v, sw⟩, [.createXmrView v.shared_keypair], none) ∧
        v.shared_keypair.view = c.scalarAdd sw.keys.monero_view keys.monero_view ∧
        v.shared_keypair.spend =
          c.pointAdd (c.fromPrivate sw.keys.monero_spend) keys.monero_spend ∧
        v.alice_keys = keys.toWithoutProof ∧
        v.contract_pair = cp ∧ v.xmr_restore_height = 0 := by
  intro c sw keys receiving cp hpf hcc
  refine ⟨{ alice_keys := keys.toWithoutProof
            alice_bch_recv := receiving
            contract_pair := cp
            shared_keypair :=
              { view := c.scalarAdd sw.keys.monero_view keys.monero_view
                spend := c.pointAdd (c.fromPrivate sw.keys.monero_spend) keys.monero_spend }
            xmr_restore_height := 0 }, ?_, rfl, rfl, rfl, rfl, rfl⟩
  simp [Bob.transition, hpf, hcc]

/-- C4: in `TcpElectrum::send` the one-shot completion slot is registered in
the pending table strictly before the request frame is written (program
order of `sendSteps`); and each request id is delivered its matching response
exactly once or never — the read loop removes the slot on the first line
carrying that id, a line whose id has no pending slot is silently dropped,
and over any inbound line sequence the caller of an id receives at most one
line. -/
theorem send_registration_and_single_delivery :
    (sendSteps.findIdx (· == SendStep.registerSlot) <
        sendSteps.findIdx (· == SendStep.writeFrame)) ∧
    (∀ (s : MuxState) (i raw : Nat),
        lookupSlot i s.pending = none → processLine s ⟨some i, raw⟩ = s) ∧
    (∀ (s : MuxState) (lines : List Line) (i : Nat),
        (s.pending.map Prod.fst).Nodup →
        countD i (processLines s lines) ≤ countD i s + 1) := by
  refine ⟨by decide, ?_, ?_⟩
  · intro s i raw h
    simp [processLine, h]
  · intro s lines i h
    exact processLines_at_most_once i lines s h

/-- C4 witness: a duplicate-id line is dropped on an empty table, and a table
holding one slot for id 5 delivers at most one of two lines carrying id 5. -/
theorem send_registration_and_single_delivery_witness :
    processLine ⟨[], [], []⟩ ⟨some 5, 9⟩ = ⟨[], [], []⟩ ∧
    countD 5 (processLines ⟨[(5, .alive)], [], []⟩ [⟨some 5, 1⟩, ⟨some 5, 2⟩]) ≤
      countD 5 ⟨[(5, .alive)], [], []⟩ + 1 :=
  ⟨send_registration_and_single_delivery.2.1 ⟨[], [], []⟩ 5 9 rfl,
   send_registration_and_single_delivery.2.2 ⟨[(5, .alive)], [], []⟩
     [⟨some 5, 1⟩, ⟨some 5, 2⟩] 5 (by decide)⟩

/-- C10: when the socket write inside `send` fails, the registered slot for
the allocated id stays in the pending table (dead, since the caller dropped
its receiver on the error return); a later inbound line carrying that id is
consumed by the stale slot — removed from the table, delivered to no caller,
and not published as a notification. -/
theorem send_write_error_stale_slot :
    ∀ (s : MuxState) (i raw : Nat),
      lookupSlot i s.pending = none →
      lookupSlot i (sendWriteFailed s i).pending = some .dead ∧
      (sendWriteFailed s i).pending = s.pending ++ [(i, .dead)] ∧
      processLine (sendWriteFailed s i) ⟨some i, raw⟩ =
        ⟨s.pending, s.delivered, s.notified⟩ := by
  intro s i raw h
  have hp : (sendWriteFailed s i).pending = s.pending ++ [(i, .dead)] :=
    sendWriteFailed_pending h
  have hl : lookupSlot i (sendWriteFailed s i).pending = some .dead := by
    rw [hp]
    exact lookupSlot_append_self h
  refine ⟨hl, hp, ?_⟩
  have hdel : (sendWriteFailed s i).delivered = s.delivered := rfl
  have hnot : (sendWriteFailed s i).notified = s.notified := rfl
  rw [show processLine (sendWriteFailed s i) ⟨some i, raw⟩ =
      ⟨removeSlot i (sendWriteFailed s i).pending, (sendWriteFailed s i).delivered,
        (sendWriteFailed s i).notified⟩ by
    simp [processLine, hl]]
  rw [hdel, hnot, hp, removeSlot_append_self h]

/-- C10 witness: the stale-slot behaviour at a concrete input. -/
theorem send_write_error_stale_slot_witness :
    lookupSlot 1 (sendWriteFailed ⟨[], [], []⟩ 1).pending = some .dead ∧
    (sendWriteFailed ⟨[], [], []⟩ 1).pending = [] ++ [(1, .dead)] ∧
    processLine (sendWriteFailed ⟨[], [], []⟩ 1) ⟨some 1, 7⟩ = ⟨[], [], []⟩ :=
  send_write_error_stale_slot ⟨[], [], []⟩ 1 7 rfl

/-- C6: `Runner::priv_transition` is all-or-nothing: if the pure transition
reports an error, the stored state is returned unchanged with no action
executed; whenever it returns an error outcome the stored state equals the
pre-call state and the executed actions form an in-order prefix of the list
the transition returned; and the new state is committed only when the action
loop executed exactly the returned actions, in order, all successfully. -/
theorem priv_transition_all_or_nothing :
    ∀ (c : Crypto) (env : Nat → ActionEnv) (r : Bob) (t : Transition)
      (ns : Bob) (acts : List Action) (err : Option Error),
      Bob.transition c r t = some (ns, acts, err) →
      ((∃ e, err = some e) → privTransition c env r t = .err r [] []) ∧
      (∀ b tr efs, privTransition c env r t = .err b tr efs →
          b = r ∧ ∃ r2, tr ++ r2 = acts) ∧
      (∀ fin tr efs, privTransition c env r t = .committed fin tr efs →
          err = none ∧ tr = acts ∧
          runActions c env 0 ns acts = .ok acts efs fin) := by
  intro c env r t ns acts err htr
  refine ⟨?_, ?_, ?_⟩
  · rintro ⟨e, he⟩
    subst he
    simp [privTransition, htr]
  · intro b tr efs h
    cases err with
    | some e =>
      simp [privTransition, htr] at h
      exact ⟨h.1.symm, acts, by rw [h.2.1]; exact List.nil_append acts⟩
    | none =>
      cases hra : runActions c env 0 ns acts with
      | panicked => simp [privTransition, htr, hra] at h
      | failed tr0 efs0 =>
        simp [privTransition, htr, hra] at h
        obtain ⟨r2, hr2⟩ := runActions_failed_suffix hra
        exact ⟨h.1.symm, r2, by rw [← h.2.1]; exact hr2⟩
      | ok tr0 efs0 fin0 => simp [privTransition, htr, hra] at h
  · intro fin tr efs h
    cases err with
    | some e => simp [privTransition, htr] at h
    | none =>
      cases hra : runActions c env 0 ns acts with
      | panicked => simp [privTransition, htr, hra] at h
      | failed tr0 efs0 => simp [privTransition, htr, hra] at h
      | ok tr0 efs0 fin0 =>
        simp [privTransition, htr, hra] at h
        have htr0 : tr0 = acts := runActions_ok_trace hra
        refine ⟨rfl, by rw [← h.2.1]; exact htr0, ?_⟩
        rw [htr0, h.2.2, h.1]

/-- C6 witness: a transition that errors leaves the stored state untouched. -/
theorem priv_transition_all_or_nothing_witness :
    privTransition cdef envOk ⟨.init, exSwap⟩ (.encSig 0) = .err ⟨.init, exSwap⟩ [] [] :=
  (priv_transition_all_or_nothing cdef envOk ⟨.init, exSwap⟩ (.encSig 0)
      ⟨.init, exSwap⟩ [] (some .invalidStateTransition) rfl).1 ⟨_, rfl⟩

/-- C8 witness: the additive shared-keypair construction at a concrete
input. -/
theorem shared_keypair_additive_witness :
    ∃ v : Value0,
      Bob.transition cAccept ⟨.init, exSwap⟩ (.msg0 exKeyPublic [9]) =
        some (⟨.withAliceKey v, exSwap⟩, [.createXmrView v.shared_keypair], none) ∧
      v.shared_keypair.view = cAccept.scalarAdd exSwap.keys.monero_view exKeyPublic.monero_view ∧
      v.shared_keypair.spend =
        cAccept.pointAdd (cAccept.fromPrivate exSwap.keys.monero_spend)
          exKeyPublic.monero_spend ∧
      v.alice_keys = exKeyPublic.toWithoutProof ∧
      v.contract_pair = exCP ∧ v.xmr_restore_height = 0 :=
  shared_keypair_additive cAccept exSwap exKeyPublic [9] exCP rfl rfl

end BchXmrSwap
